import Mathlib

/-!
Shallow embedding of the audiobookshelf series-tracking core: the Audible
catalog client (`src/server/providers/Audible.js`), the series finder
(`src/server/finders/SeriesFinder.js`), the tracking store models
(`TrackedSeries`, `NewRelease`) and the new-release manager / scheduler
(`NewReleaseManager`).  JavaScript strings become `String`, nullable fields
become `Option`, async network calls become a response oracle (`Net`)
together with an explicit trace of the requests a call issues, and the
database tables become lists of rows.
-/

/-- JavaScript truthiness of an optional string field: `null`/`undefined`
and the empty string are falsy, every other string is truthy. -/
def strTruthy : Option String → Bool
  | none => false
  | some s => s ≠ ""

/-- JavaScript `String.prototype.toUpperCase` restricted to the provider
identifiers this system handles (ASCII): uppercase character by
character. -/
def jsToUpper (s : String) : String := ⟨s.toList.map Char.toUpper⟩

/-- Modelled from the spec: `isValidASIN` lives in `src/server/utils/index`,
which is not among the sources.  The spec describes it as matching the
provider fixed-format identifier pattern: fixed length (ASINs are 10
characters), alphanumeric, case-insensitive (every caller uppercases the
candidate before testing). -/
def isValidASIN (s : String) : Bool :=
  s.length = 10 && s.toList.all Char.isAlphanum

/-- The leftmost match of the JavaScript regular expression
`/\.\d+|\d+(?:\.\d+)?/` used by `Audible.cleanSeriesSequence`: at each
position the first alternative (a leading-dot decimal) is tried, then the
second (an integer with an optional fractional part, digits taken
greedily); the scan advances one character on failure. -/
def firstNumberMatch : List Char → Option (List Char)
  | [] => none
  | c :: rest =>
    if c = '.' then
      let ds := rest.takeWhile Char.isDigit
      if ds.isEmpty then firstNumberMatch rest else some ('.' :: ds)
    else if c.isDigit then
      let ds := List.takeWhile Char.isDigit (c :: rest)
      match List.dropWhile Char.isDigit (c :: rest) with
      | '.' :: r3 =>
        let fs := r3.takeWhile Char.isDigit
        if fs.isEmpty then some ds else some (ds ++ '.' :: fs)
      | _ => some ds
    else firstNumberMatch rest

/-- `Audible.cleanSeriesSequence` (src/server/providers/Audible.js:32-41):
a falsy (empty) sequence yields `""`; otherwise the first match of
`/\.\d+|\d+(?:\.\d+)?/` replaces the raw string, and if there is no match
the raw string is kept.  The series name argument is only used for
logging. -/
def cleanSeriesSequence (seriesName sequence : String) : String :=
  if sequence = "" then ""
  else
    match firstNumberMatch sequence.toList with
    | some m => ⟨m⟩
    | none => sequence

example : cleanSeriesSequence "S" "2, Dramatized Adaptation" = "2" := by decide
example : cleanSeriesSequence "S" ".5" = ".5" := by decide
example : cleanSeriesSequence "S" "1.5" = "1.5" := by decide
example : cleanSeriesSequence "S" "Book 2" = "2" := by decide
example : cleanSeriesSequence "S" "abc" = "abc" := by decide

/-- One entry of the external series listing as produced by
`SeriesFinder.getSeriesBooksByAsin` (a `SeriesBookResult`).  `asin`,
`sequence` and the descriptive fields are nullable in the source. -/
structure SeriesBookResult where
  asin : Option String
  title : String
  author : Option String
  narrator : Option String
  coverUrl : Option String
  releaseDate : Option String
  sequence : Option String
  provider : String
  deriving DecidableEq

/-- The filtering step of `SeriesFinder.getNewReleasesForSeries`
(src/server/finders/SeriesFinder.js:116-120): an external book is kept
when `book.asin` is truthy and its uppercased value is in neither the
library set nor the already-recorded set.  The two sets are the uppercased
identifier sets the surrounding code reads from the library and from the
`newReleases` table; they are taken as inputs here. -/
def getNewReleasesFilter (externalBooks : List SeriesBookResult)
    (libraryAsins existingReleaseAsins : List String) : List SeriesBookResult :=
  externalBooks.filter fun book =>
    match book.asin with
    | none => false
    | some a =>
      a ≠ "" && !(libraryAsins.contains (jsToUpper a))
        && !(existingReleaseAsins.contains (jsToUpper a))

/-- The set-difference characterization claimed by the spec, written from
the words of the claim: the result is exactly the external entries whose
identifier, uppercased, is present in neither set (entries with no
identifier at all have no uppercased identifier and are not described). -/
def specNewReleaseEntries (externalBooks : List SeriesBookResult)
    (libraryAsins existingReleaseAsins : List String) : List SeriesBookResult :=
  externalBooks.filter fun book =>
    match book.asin with
    | none => false
    | some a =>
      !(libraryAsins.contains (jsToUpper a)) && !(existingReleaseAsins.contains (jsToUpper a))

example :
    getNewReleasesFilter
      [{ asin := some "b1", title := "t", author := none, narrator := none,
         coverUrl := none, releaseDate := none, sequence := none, provider := "audible" }]
      ["B1"] [] = [] := by decide

theorem takeWhile_isDigit_eq_nil {l : List Char}
    (h : ∀ c ∈ l, c.isDigit = false) : l.takeWhile Char.isDigit = [] := by
  cases l with
  | nil => rfl
  | cons d t =>
    have hd : d.isDigit = false := h d (List.mem_cons_self ..)
    simp [List.takeWhile_cons, hd]

theorem firstNumberMatch_eq_none {cs : List Char}
    (h : ∀ c ∈ cs, c.isDigit = false) : firstNumberMatch cs = none := by
  induction cs with
  | nil => rfl
  | cons c rest ih =>
    have hc : c.isDigit = false := h c (List.mem_cons_self ..)
    have hrest : ∀ x ∈ rest, x.isDigit = false :=
      fun x hx => h x (List.mem_cons_of_mem _ hx)
    have htw : rest.takeWhile Char.isDigit = [] := takeWhile_isDigit_eq_nil hrest
    by_cases hdot : c = '.'
    · simp [firstNumberMatch, hdot, htw, ih hrest]
    · simp [firstNumberMatch, hdot, hc, ih hrest]

/-- C5: `cleanSeriesSequence` extracts the first decimal-or-integer numeric
substring of its input, supporting leading-dot decimals: on
"2, Dramatized Adaptation" it yields "2", on ".5" it yields ".5", and any
input containing no digit characters is returned unchanged. -/
theorem c5_cleanSeriesSequence_spec :
    cleanSeriesSequence "S" "2, Dramatized Adaptation" = "2" ∧
    cleanSeriesSequence "S" ".5" = ".5" ∧
    ∀ (name s : String), (∀ c ∈ s.toList, c.isDigit = false) →
      cleanSeriesSequence name s = s := by
  refine ⟨by decide, by decide, ?_⟩
  intro name s h
  unfold cleanSeriesSequence
  by_cases hs : s = ""
  · simp [hs]
  · have hn : firstNumberMatch s.data = none := firstNumberMatch_eq_none h
    simp [hs, hn]

/-- Witness for C5: a concrete digit-free input is returned unchanged. -/
theorem c5_witness : cleanSeriesSequence "Series" "Dramatized Adaptation" = "Dramatized Adaptation" :=
  c5_cleanSeriesSequence_spec.2.2 "Series" "Dramatized Adaptation" (by decide)

/-- A concrete external entry whose identifier field is present but empty. -/
def emptyAsinBook : SeriesBookResult :=
  { asin := some "", title := "t", author := none, narrator := none,
    coverUrl := none, releaseDate := none, sequence := none, provider := "audible" }

/-- C1 counterexample: an external entry whose identifier is the empty
string is absent from both (empty) sets, so the claimed set-difference
characterization requires it in the result, but
`getNewReleasesForSeries` drops it (the `!book.asin` truthiness guard). -/
theorem c1_counterexample :
    getNewReleasesFilter [emptyAsinBook] [] [] = [] ∧
    specNewReleaseEntries [emptyAsinBook] [] [] = [emptyAsinBook] ∧
    getNewReleasesFilter [emptyAsinBook] [] [] ≠
      specNewReleaseEntries [emptyAsinBook] [] [] := by
  refine ⟨by decide, by decide, by decide⟩

/-- C1 amended: the diff engine returns exactly those external entries
carrying a non-empty identifier whose uppercased identifier is present in
neither the owned set nor the already-recorded set, in the order the
entries were returned by the catalog client (filtering preserves order). -/
theorem c1_diff_characterization :
    ∀ (externalBooks : List SeriesBookResult) (lib rec : List String),
      getNewReleasesFilter externalBooks lib rec =
        externalBooks.filter fun b =>
          strTruthy b.asin && !(lib.contains (jsToUpper (b.asin.getD "")))
            && !(rec.contains (jsToUpper (b.asin.getD ""))) := by
  intro externalBooks lib rec
  unfold getNewReleasesFilter
  apply List.filter_congr
  intro b _
  cases hb : b.asin with
  | none => simp [strTruthy, hb]
  | some a =>
    by_cases ha : a = ""
    · simp [strTruthy, hb, ha]
    · simp [strTruthy, hb, ha]

/-- A row of the `newReleases` table.  The UUID primary key and the
timestamps play no role in the claims and are omitted; the identity-
relevant columns are `trackedSeriesId` and `asin` (the composite unique
index from the 2.32.0 migration). -/
structure NewReleaseRow where
  trackedSeriesId : String
  asin : String
  title : String
  author : Option String
  narrator : Option String
  coverUrl : Option String
  releaseDate : Option String
  sequence : Option String
  provider : String
  dismissed : Bool
  deriving DecidableEq

/-- JavaScript `x || null` on an optional string: the empty string is
replaced by null. -/
def orNull : Option String → Option String
  | none => none
  | some s => if s = "" then none else some s

/-- The row built by `NewRelease.createNewRelease` from one diffed book
(src/server/models/NewRelease.js:142-156 together with the call site in
`NewReleaseManager.checkSeriesForNewReleases`). -/
def releaseRowOfBook (tsId : String) (b : SeriesBookResult) : NewReleaseRow :=
  { trackedSeriesId := tsId
    asin := b.asin.getD ""
    title := b.title
    author := orNull b.author
    narrator := orNull b.narrator
    coverUrl := orNull b.coverUrl
    releaseDate := orNull b.releaseDate
    sequence := orNull b.sequence
    provider := if b.provider = "" then "audible" else b.provider
    dismissed := false }

/-- The database insert behind `NewRelease.createNewRelease`: the unique
index `unique_release_per_tracked_series` on (trackedSeriesId, asin) from
the 2.32.0 migration makes a colliding insert raise
`SequelizeUniqueConstraintError`, modelled as `Except.error ()`. -/
def createNewRelease (st : List NewReleaseRow) (row : NewReleaseRow) :
    Except Unit (List NewReleaseRow) :=
  if st.any (fun r => r.trackedSeriesId = row.trackedSeriesId && r.asin = row.asin) then
    Except.error ()
  else Except.ok (st ++ [row])

/-- One iteration of the creation loop in
`NewReleaseManager.checkSeriesForNewReleases`: a unique-constraint
violation is caught, logged as "already exists" and otherwise ignored, so
the store is left unchanged and no error escapes. -/
def tryCreateNewRelease (st : List NewReleaseRow) (row : NewReleaseRow) :
    List NewReleaseRow :=
  match createNewRelease st row with
  | Except.ok st2 => st2
  | Except.error _ => st

/-- The creation loop of `NewReleaseManager.checkSeriesForNewReleases`
over the diffed books: returns the updated store together with the list
of actually created rows (`createdReleases`). -/
def persistNewReleases (tsId : String) :
    List SeriesBookResult → List NewReleaseRow → List NewReleaseRow × List NewReleaseRow
  | [], st => (st, [])
  | b :: bs, st =>
    let row := releaseRowOfBook tsId b
    match createNewRelease st row with
    | Except.ok st2 =>
      let rest := persistNewReleases tsId bs st2
      (rest.1, row :: rest.2)
    | Except.error _ => persistNewReleases tsId bs st

/-- The number of rows of the store carrying a given
(trackedSeriesId, asin) pair. -/
def pairCount (st : List NewReleaseRow) (tsId asin : String) : Nat :=
  (st.filter (fun r => r.trackedSeriesId = tsId && r.asin = asin)).length

theorem tryCreateNewRelease_of_exists {st : List NewReleaseRow} {row : NewReleaseRow}
    (h : 1 ≤ pairCount st row.trackedSeriesId row.asin) :
    tryCreateNewRelease st row = st := by
  unfold pairCount at h
  have hne : st.filter (fun r => r.trackedSeriesId = row.trackedSeriesId
      && r.asin = row.asin) ≠ [] := by
    intro hnil
    rw [hnil] at h
    simp at h
  obtain ⟨r, hr⟩ := List.exists_mem_of_ne_nil _ hne
  have hmem := List.mem_filter.mp hr
  have hany : st.any (fun r => r.trackedSeriesId = row.trackedSeriesId
      && r.asin = row.asin) = true :=
    List.any_eq_true.mpr ⟨r, hmem.1, hmem.2⟩
  unfold tryCreateNewRelease createNewRelease
  simp [hany]

theorem pairCount_tryCreateNewRelease_le {st : List NewReleaseRow} (row : NewReleaseRow)
    (t e : String) (h : pairCount st t e ≤ 1) :
    pairCount (tryCreateNewRelease st row) t e ≤ 1 := by
  unfold tryCreateNewRelease createNewRelease
  by_cases hany : st.any (fun r => r.trackedSeriesId = row.trackedSeriesId
      && r.asin = row.asin) = true
  · simp [hany, h]
  · simp only [hany, Bool.false_eq_true, if_neg, ite_false]
    unfold pairCount at h ⊢
    rw [List.filter_append, List.length_append]
    by_cases hrow : (row.trackedSeriesId = t ∧ row.asin = e)
    · have hcnt : st.filter (fun r => r.trackedSeriesId = t && r.asin = e) = [] := by
        rw [List.filter_eq_nil_iff]
        intro r hrmem
        intro hpred
        apply hany
        apply List.any_eq_true.mpr
        refine ⟨r, hrmem, ?_⟩
        have h1 : r.trackedSeriesId = t := by
          have := (Bool.and_eq_true _ _).mp hpred
          exact of_decide_eq_true this.1
        have h2 : r.asin = e := by
          have := (Bool.and_eq_true _ _).mp hpred
          exact of_decide_eq_true this.2
        simp [h1, h2, hrow.1, hrow.2]
      simp [hcnt, List.filter, hrow.1, hrow.2]
    · have hrowf : ([row].filter (fun r => r.trackedSeriesId = t && r.asin = e)) = [] := by
        simp only [List.filter, List.filter_nil]
        have : (row.trackedSeriesId = t && row.asin = e) = false := by
          rcases not_and_or.mp hrow with hc | hc <;> simp [hc]
        simp [this]
      rw [hrowf]
      simpa using h

theorem createNewRelease_ok {st st2 : List NewReleaseRow} {row : NewReleaseRow}
    (h : createNewRelease st row = Except.ok st2) : st2 = st ++ [row] := by
  unfold createNewRelease at h
  split at h
  · cases h
  · cases h
    rfl

theorem mem_persistNewReleases {tsId : String} :
    ∀ (bs : List SeriesBookResult) (st : List NewReleaseRow) (r : NewReleaseRow),
      r ∈ (persistNewReleases tsId bs st).1 →
      r ∈ st ∨ ∃ b ∈ bs, r = releaseRowOfBook tsId b := by
  intro bs
  induction bs with
  | nil =>
    intro st r h
    exact Or.inl h
  | cons b rest ih =>
    intro st r h
    unfold persistNewReleases at h
    cases hc : createNewRelease st (releaseRowOfBook tsId b) with
    | ok st2 =>
      simp only [hc] at h
      rcases ih st2 r h with hin | ⟨b2, hb2, he⟩
      · rw [createNewRelease_ok hc] at hin
        rcases List.mem_append.mp hin with hl | hr
        · exact Or.inl hl
        · right
          exact ⟨b, List.mem_cons_self .., List.mem_singleton.mp hr⟩
      · right
        exact ⟨b2, List.mem_cons_of_mem _ hb2, he⟩
    | error u =>
      simp only [hc] at h
      rcases ih st r h with hin | ⟨b2, hb2, he⟩
      · exact Or.inl hin
      · right
        exact ⟨b2, List.mem_cons_of_mem _ hb2, he⟩

/-- C2: attempting to create a `NewRelease` for a (trackedSeriesId, asin)
pair that already has a row is a no-op success (the unique-constraint
error is caught, the store is unchanged, nothing is thrown), the
per-pair at-most-one-row invariant is preserved by a single attempt, and
it is preserved by every sequence of attempts, covering any
interleaving of concurrent creators serialized by the database. -/
theorem c2_newRelease_uniqueness :
    ∀ (st : List NewReleaseRow) (row : NewReleaseRow),
      (1 ≤ pairCount st row.trackedSeriesId row.asin → tryCreateNewRelease st row = st) ∧
      (∀ t e, pairCount st t e ≤ 1 → pairCount (tryCreateNewRelease st row) t e ≤ 1) ∧
      (∀ attempts : List NewReleaseRow, (∀ t e, pairCount st t e ≤ 1) →
        ∀ t e, pairCount (attempts.foldl tryCreateNewRelease st) t e ≤ 1) := by
  intro st row
  refine ⟨fun h => tryCreateNewRelease_of_exists h,
    fun t e h => pairCount_tryCreateNewRelease_le row t e h, ?_⟩
  intro attempts
  induction attempts generalizing st with
  | nil =>
    intro h t e
    exact h t e
  | cons a rest ih =>
    intro h t e
    simp only [List.foldl_cons]
    exact ih (tryCreateNewRelease st a)
      (fun t2 e2 => pairCount_tryCreateNewRelease_le a t2 e2 (h t2 e2)) t e

/-- A concrete release row for witnesses. -/
def sampleRelease : NewReleaseRow :=
  { trackedSeriesId := "ts1", asin := "B00TEST123", title := "t", author := none,
    narrator := none, coverUrl := none, releaseDate := none, sequence := some "1",
    provider := "audible", dismissed := false }

/-- Witness for C2: re-creating an existing row leaves the store as is. -/
theorem c2_witness : tryCreateNewRelease [sampleRelease] sampleRelease = [sampleRelease] :=
  (c2_newRelease_uniqueness [sampleRelease] sampleRelease).1 (by decide)

/-- C10: an external entry whose identifier field is missing or empty is
silently excluded by the diff engine, and the creation loop run on the
diff result never persists a row with an empty identifier (every row it
adds comes from a diff entry, which always carries a non-empty
identifier). -/
theorem c10_empty_identifier_never_persisted :
    ∀ (books : List SeriesBookResult) (lib rec : List String) (b : SeriesBookResult),
      b.asin = none ∨ b.asin = some "" →
      b ∉ getNewReleasesFilter books lib rec ∧
      ∀ (tsId : String) (st : List NewReleaseRow) (r : NewReleaseRow),
        r ∈ (persistNewReleases tsId (getNewReleasesFilter books lib rec) st).1 →
        r ∈ st ∨ r.asin ≠ "" := by
  intro books lib rec b hb
  constructor
  · intro hmem
    have hpred := (List.mem_filter.mp hmem).2
    rcases hb with h0 | h0 <;> rw [h0] at hpred <;> simp at hpred
  · intro tsId st r hr
    rcases mem_persistNewReleases _ st r hr with hin | ⟨b2, hb2, he⟩
    · exact Or.inl hin
    · right
      have hpred := (List.mem_filter.mp hb2).2
      cases ha : b2.asin with
      | none =>
        rw [ha] at hpred
        simp at hpred
      | some a =>
        rw [ha] at hpred
        have hane : a ≠ "" := by
          by_contra hae
          rw [hae] at hpred
          simp at hpred
        rw [he]
        unfold releaseRowOfBook
        simp [ha, hane]

/-- Witness for C10: a concrete empty-identifier entry is not in the diff
result. -/
theorem c10_witness : emptyAsinBook ∉ getNewReleasesFilter [emptyAsinBook] [] [] :=
  (c10_empty_identifier_never_persisted [emptyAsinBook] [] [] emptyAsinBook (Or.inr rfl)).1

/-- A row of the `trackedSeries` table (timestamps beyond `lastChecked`
omitted).  `lastChecked` is a nullable instant, in milliseconds. -/
structure TrackedSeriesRow where
  id : String
  userId : String
  seriesId : String
  seriesAsin : Option String
  autoTracked : Bool
  region : String
  lastChecked : Option Int
  deriving DecidableEq

/-- `TrackedSeries.getByUserAndSeries`: `findOne` on the composite
(userId, seriesId) key. -/
def getByUserAndSeries (st : List TrackedSeriesRow) (userId seriesId : String) :
    Option TrackedSeriesRow :=
  st.find? (fun r => r.userId = userId && r.seriesId = seriesId)

/-- The data object passed to `TrackedSeries.createTrackedSeries`. -/
structure CreateTrackedSeriesData where
  userId : String
  seriesId : String
  seriesAsin : Option String
  autoTracked : Bool
  region : Option String
  deriving DecidableEq

/-- `TrackedSeries.createTrackedSeries`
(src/server/controllers/SeriesTrackingController.js concatenation,
lines 564-575): look up the existing (userId, seriesId) row and return it
unchanged when present; otherwise insert a fresh row (`data.seriesAsin ||
null`, `data.autoTracked || false`, `data.region` defaulting to us).
`newId` is
the generated UUID primary key of a fresh insert. -/
def createTrackedSeries (newId : String) (st : List TrackedSeriesRow)
    (d : CreateTrackedSeriesData) : TrackedSeriesRow × List TrackedSeriesRow :=
  match getByUserAndSeries st d.userId d.seriesId with
  | some existing => (existing, st)
  | none =>
    let row : TrackedSeriesRow :=
      { id := newId
        userId := d.userId
        seriesId := d.seriesId
        seriesAsin := orNull d.seriesAsin
        autoTracked := d.autoTracked
        region := match d.region with | none => "us" | some x => if x = "" then "us" else x
        lastChecked := none }
    (row, st ++ [row])

/-- `SeriesTrackingController.followSeries`, reduced to its store effect
(lines 36-39 and 66-72 of the controller): if the user already tracks the
series the existing row is returned as is, otherwise
`createTrackedSeries` runs with the resolved data. -/
def followSeries (newId : String) (st : List TrackedSeriesRow)
    (userId seriesId : String) (seriesAsin : Option String) (region : String) :
    TrackedSeriesRow × List TrackedSeriesRow :=
  match getByUserAndSeries st userId seriesId with
  | some existing => (existing, st)
  | none =>
    createTrackedSeries newId st
      { userId := userId, seriesId := seriesId, seriesAsin := seriesAsin,
        autoTracked := false, region := some region }

theorem getByUserAndSeries_createTrackedSeries (newId : String)
    (st : List TrackedSeriesRow) (d : CreateTrackedSeriesData) :
    getByUserAndSeries (createTrackedSeries newId st d).2 d.userId d.seriesId =
      some (createTrackedSeries newId st d).1 := by
  unfold createTrackedSeries
  cases hf : getByUserAndSeries st d.userId d.seriesId with
  | some existing =>
    simpa [getByUserAndSeries] using hf
  | none =>
    simp only []
    unfold getByUserAndSeries at hf ⊢
    rw [List.find?_append, hf]
    simp

/-- C3: following a series a second time after a successful first follow
returns the very row the first call produced and leaves the store
untouched: no second row is created and no error is raised, for both the
controller short-circuit and `createTrackedSeries` itself. -/
theorem c3_follow_idempotent :
    ∀ (st : List TrackedSeriesRow) (userId seriesId : String)
      (seriesAsin : Option String) (region : String) (id1 id2 : String),
      (followSeries id2 (followSeries id1 st userId seriesId seriesAsin region).2
          userId seriesId seriesAsin region).1 =
        (followSeries id1 st userId seriesId seriesAsin region).1 ∧
      (followSeries id2 (followSeries id1 st userId seriesId seriesAsin region).2
          userId seriesId seriesAsin region).2 =
        (followSeries id1 st userId seriesId seriesAsin region).2 := by
  intro st userId seriesId seriesAsin region id1 id2
  unfold followSeries
  cases hf : getByUserAndSeries st userId seriesId with
  | some existing =>
    simp only [hf]
    exact ⟨trivial, trivial⟩
  | none =>
    simp only [hf]
    have hkey :
        getByUserAndSeries
          (createTrackedSeries id1 st
            { userId := userId, seriesId := seriesId, seriesAsin := seriesAsin,
              autoTracked := false, region := some region }).2 userId seriesId =
        some (createTrackedSeries id1 st
            { userId := userId, seriesId := seriesId, seriesAsin := seriesAsin,
              autoTracked := false, region := some region }).1 :=
      getByUserAndSeries_createTrackedSeries id1 st _
    rw [hkey]
    exact ⟨rfl, rfl⟩

/-- A network request issued by the catalog client, identified by
endpoint and identifier.  The region only selects the provider domain or
a query parameter of the same endpoint and is not part of the request
identity. -/
inductive CatalogReq where
  | book (asin : String)
  | sims (asin : String)
  | product (asin : String)
  deriving DecidableEq

/-- A `seriesPrimary`/`seriesSecondary` association of an Audnexus book
payload. -/
structure SeriesAssoc where
  asin : Option String
  name : String
  position : Option String
  deriving DecidableEq

/-- The fields of an Audnexus book payload read by `cleanResult` and the
series extraction.  `asin` is the field whose absence makes `asinSearch`
report "not found" (an absent field is the empty string). -/
structure BookPayload where
  asin : String
  title : String
  subtitle : Option String
  authors : Option (List String)
  narrators : Option (List String)
  releaseDate : Option String
  image : Option String
  seriesPrimary : Option SeriesAssoc
  seriesSecondary : Option SeriesAssoc
  deriving DecidableEq

/-- One element of the `series` list of a cleaned book record. -/
structure CleanSeriesEntry where
  series : String
  sequence : String
  deriving DecidableEq

/-- The canonical book record produced by `Audible.cleanResult`
(the fields the series-tracking pipeline reads). -/
structure CleanBook where
  title : String
  subtitle : Option String
  author : Option String
  narrator : Option String
  publishedYear : Option String
  cover : Option String
  asin : String
  series : Option (List CleanSeriesEntry)
  deriving DecidableEq

/-- `Audible.cleanResult` (src/server/providers/Audible.js:43-83)
restricted to the fields above: author and narrator names are joined with
", ", the published year is the release date up to the first "-", and the
series associations run through `cleanSeriesSequence`. -/
def cleanResult (item : BookPayload) : CleanBook :=
  let series :=
    (match item.seriesPrimary with
     | some sp =>
       [{ series := sp.name,
          sequence := cleanSeriesSequence sp.name (sp.position.getD "") : CleanSeriesEntry }]
     | none => []) ++
    (match item.seriesSecondary with
     | some ss =>
       [{ series := ss.name,
          sequence := cleanSeriesSequence ss.name (ss.position.getD "") : CleanSeriesEntry }]
     | none => [])
  { title := item.title
    subtitle := orNull item.subtitle
    author := item.authors.map (String.intercalate ", ")
    narrator := item.narrators.map (String.intercalate ", ")
    publishedYear :=
      match item.releaseDate with
      | none => none
      | some d => if d = "" then none else some ((d.splitOn "-").headD "")
    cover := item.image
    asin := item.asin
    series := if series.isEmpty then none else some series }

/-- One related-product descriptor of an Audible relationship-graph
response. -/
structure RelationshipEntry where
  relationship_to_product : String
  relationship_type : String
  asin : Option String
  deriving DecidableEq

/-- The response oracle standing for the provider endpoints: `book` is
the Audnexus books endpoint, `sims` the same-series similarity endpoint
(the list of similar-product identifiers), `productRelationships` the
catalog product endpoint asked for relationships.  `none` models a
transport error, timeout or malformed payload (for `sims` also a payload
without `similar_products`). -/
structure Net where
  book : String → Option BookPayload
  sims : String → Option (List String)
  productRelationships : String → Option (List RelationshipEntry)

/-- `Audible.asinSearch` (src/server/providers/Audible.js:92-112): a falsy
identifier short-circuits to null with no request; otherwise the
uppercased identifier is looked up and a payload without a truthy `asin`
field, like any transport error, yields null.  The second component is
the trace of requests issued. -/
def asinSearch (net : Net) (asin : Option String) (region : Option String) :
    Option BookPayload × List CatalogReq :=
  match asin with
  | none => (none, [])
  | some a =>
    if a = "" then (none, [])
    else
      let key := jsToUpper a
      match net.book key with
      | none => (none, [CatalogReq.book key])
      | some payload =>
        (if payload.asin = "" then none else some payload, [CatalogReq.book key])

/-- `Audible.getSeriesBooks` (src/server/providers/Audible.js:123-162):
validate the book identifier, fetch the same-series similarity set,
resolve every similar product and the original book through `asinSearch`,
prepend the original when found, drop nulls and clean each payload.  A
transport error or a payload without `similar_products` yields the empty
list with no further requests. -/
def getSeriesBooks (net : Net) (asin : String) (region : String) :
    List CleanBook × List CatalogReq :=
  if asin = "" || !(isValidASIN (jsToUpper asin)) then ([], [])
  else
    let a := jsToUpper asin
    match net.sims a with
    | none => ([], [CatalogReq.sims a])
    | some prods =>
      let lookups := prods.map (fun p => asinSearch net (some p) (some region))
      let details := lookups.map Prod.fst
      let orig := asinSearch net (some a) (some region)
      let all :=
        match orig.1 with
        | some b => some b :: details
        | none => details
      ((all.filterMap id).map cleanResult,
        CatalogReq.sims a :: ((lookups.map Prod.snd).flatten ++ orig.2))

/-- `Audible.getBooksBySeriesAsin` (src/unnamed/part_000:173-210):
validate the series identifier, fetch the relationship graph of the
series product, pick the first relationship that is a child of the
series, and run `getSeriesBooks` on that child.  A transport error, a
missing child-of-series entry or a child without identifier yields the
empty list without attempting the later stages. -/
def getBooksBySeriesAsin (net : Net) (seriesAsin : String) (region : String) :
    List CleanBook × List CatalogReq :=
  if seriesAsin = "" || !(isValidASIN (jsToUpper seriesAsin)) then ([], [])
  else
    let sa := jsToUpper seriesAsin
    match net.productRelationships sa with
    | none => ([], [CatalogReq.product sa])
    | some rels =>
      match rels.find? (fun r => r.relationship_to_product = "child"
          && r.relationship_type = "series") with
      | none => ([], [CatalogReq.product sa])
      | some child =>
        match child.asin with
        | none => ([], [CatalogReq.product sa])
        | some ca =>
          if ca = "" then ([], [CatalogReq.product sa])
          else
            let rest := getSeriesBooks net ca region
            (rest.1, CatalogReq.product sa :: rest.2)

/-- A response oracle that fails every request. -/
def emptyNet : Net :=
  { book := fun _ => none, sims := fun _ => none,
    productRelationships := fun _ => none }

theorem valid_asin_ne_empty {s : String} (h : isValidASIN (jsToUpper s) = true) :
    s ≠ "" := by
  intro he
  rw [he] at h
  exact absurd h (by decide)

/-- C4 counterexample: "!!!" does not match the identifier pattern
(neither ten characters long nor alphanumeric), yet `asinSearch` issues
the lookup request for it — the single-item lookup validates only
truthiness, not the pattern, before calling the network. -/
theorem c4_counterexample :
    isValidASIN (jsToUpper "!!!") = false ∧
    (asinSearch emptyNet (some "!!!") none).2 = [CatalogReq.book "!!!"] := by
  exact ⟨by decide, rfl⟩

/-- C4 amended: the catalog-client operations that validate the
fixed-format identifier pattern before any network call —
`getSeriesBooks` and `getBooksBySeriesAsin` — return an empty result with
no request for a pattern-invalid identifier; `asinSearch` short-circuits
to null with no request only for a missing or empty identifier and
otherwise performs the lookup even when the pattern does not match. -/
theorem c4_validation_short_circuit :
    ∀ (net : Net) (region asin : String),
      isValidASIN (jsToUpper asin) = false →
      getSeriesBooks net asin region = ([], []) ∧
      getBooksBySeriesAsin net asin region = ([], []) ∧
      ∀ r : Option String,
        asinSearch net none r = (none, []) ∧ asinSearch net (some "") r = (none, []) := by
  intro net region asin h
  refine ⟨?_, ?_, fun r => ⟨rfl, rfl⟩⟩
  · unfold getSeriesBooks
    simp [h]
  · unfold getBooksBySeriesAsin
    simp [h]

/-- Witness for C4 (amended): the guarded series listing short-circuits
on a concrete invalid identifier. -/
theorem c4_witness : getSeriesBooks emptyNet "zz" "us" = ([], []) :=
  (c4_validation_short_circuit emptyNet "us" "zz" (by decide)).1

/-- C6: the staged series listing — relationship lookup on the series
product, selection of the first child-of-series relationship, then the
similarity stage via `getSeriesBooks` — short-circuits to an empty
result when the relationship lookup fails, when no child-of-series entry
or child identifier exists (without issuing the similarity request), and
when the similarity request fails (without issuing any item-resolution
request); when a child is found the remaining work and requests are
exactly those of `getSeriesBooks` on the child. -/
theorem c6_getBooksBySeriesAsin_stages :
    ∀ (net : Net) (seriesAsin region : String),
      isValidASIN (jsToUpper seriesAsin) = true →
      (net.productRelationships (jsToUpper seriesAsin) = none →
        getBooksBySeriesAsin net seriesAsin region =
          ([], [CatalogReq.product (jsToUpper seriesAsin)])) ∧
      (∀ rels, net.productRelationships (jsToUpper seriesAsin) = some rels →
        rels.find? (fun r => r.relationship_to_product = "child"
          && r.relationship_type = "series") = none →
        getBooksBySeriesAsin net seriesAsin region =
          ([], [CatalogReq.product (jsToUpper seriesAsin)])) ∧
      (∀ rels child ca, net.productRelationships (jsToUpper seriesAsin) = some rels →
        rels.find? (fun r => r.relationship_to_product = "child"
          && r.relationship_type = "series") = some child →
        child.asin = some ca → isValidASIN (jsToUpper ca) = true →
        net.sims (jsToUpper ca) = none →
        getBooksBySeriesAsin net seriesAsin region =
          ([], [CatalogReq.product (jsToUpper seriesAsin), CatalogReq.sims (jsToUpper ca)])) ∧
      (∀ rels child ca, net.productRelationships (jsToUpper seriesAsin) = some rels →
        rels.find? (fun r => r.relationship_to_product = "child"
          && r.relationship_type = "series") = some child →
        child.asin = some ca →
        getBooksBySeriesAsin net seriesAsin region =
          ((getSeriesBooks net ca region).1,
            CatalogReq.product (jsToUpper seriesAsin) :: (getSeriesBooks net ca region).2)) := by
  intro net seriesAsin region hvalid
  have hne : seriesAsin ≠ "" := valid_asin_ne_empty hvalid
  refine ⟨?_, ?_, ?_, ?_⟩
  · intro hrel
    unfold getBooksBySeriesAsin
    simp [hne, hvalid, hrel]
  · intro rels hrel hfind
    unfold getBooksBySeriesAsin
    simp [hne, hvalid, hrel, hfind]
  · intro rels child ca hrel hfind hasin hca hsims
    have hcane : ca ≠ "" := valid_asin_ne_empty hca
    unfold getBooksBySeriesAsin getSeriesBooks
    simp [hne, hvalid, hrel, hfind, hasin, hca, hcane, hsims]
  · intro rels child ca hrel hfind hasin
    unfold getBooksBySeriesAsin
    by_cases hca : ca = ""
    · have : getSeriesBooks net ca region = ([], []) := by
        unfold getSeriesBooks
        simp [hca]
      rw [hca] at this
      simp [hne, hvalid, hrel, hfind, hasin, hca, this]
    · simp [hne, hvalid, hrel, hfind, hasin, hca]

/-- A response oracle whose relationship lookup answers with an empty
relationship list: no child-of-series entry exists. -/
def noChildNet : Net :=
  { book := fun _ => none, sims := fun _ => none,
    productRelationships := fun _ => some [] }

/-- Witness for C6: with no child-of-series entry the listing is empty
and only the relationship request was issued. -/
theorem c6_witness :
    getBooksBySeriesAsin noChildNet "B00TEST123" "us" =
      ([], [CatalogReq.product "B00TEST123"]) :=
  ((c6_getBooksBySeriesAsin_stages noChildNet "B00TEST123" "us" (by decide)).2.1) [] rfl rfl

/-- The order key of `ORDER BY lastChecked ASC NULLS FIRST` in
`TrackedSeries.getDueForCheck`: a null last-checked sorts before every
non-null one, non-null values ascend. -/
def lastCheckedLeB (a b : TrackedSeriesRow) : Bool :=
  match a.lastChecked, b.lastChecked with
  | none, _ => true
  | some _, none => false
  | some x, some y => x ≤ y

/-- Propositional form of `lastCheckedLeB` for the sorting lemmas. -/
def lastCheckedLe (a b : TrackedSeriesRow) : Prop := lastCheckedLeB a b = true

instance : DecidableRel lastCheckedLe :=
  fun a b => inferInstanceAs (Decidable (lastCheckedLeB a b = true))

instance : IsTotal TrackedSeriesRow lastCheckedLe := by
  constructor
  intro a b
  unfold lastCheckedLe lastCheckedLeB
  cases a.lastChecked with
  | none => exact Or.inl rfl
  | some x =>
    cases b.lastChecked with
    | none => exact Or.inr rfl
    | some y =>
      simp only [decide_eq_true_eq]
      omega

instance : IsTrans TrackedSeriesRow lastCheckedLe := by
  constructor
  intro a b c hab hbc
  unfold lastCheckedLe lastCheckedLeB at hab hbc ⊢
  cases ha : a.lastChecked with
  | none => rfl
  | some x =>
    rw [ha] at hab
    cases hb : b.lastChecked with
    | none =>
      rw [hb] at hab
      cases hab
    | some y =>
      rw [hb] at hab hbc
      cases hc : c.lastChecked with
      | none =>
        rw [hc] at hbc
        cases hbc
      | some z =>
        rw [hc] at hbc
        simp only [decide_eq_true_eq] at hab hbc ⊢
        omega

/-- The WHERE clause of `TrackedSeries.getDueForCheck`
(`lastChecked IS NULL OR lastChecked < threshold`). -/
def dueForCheckPred (threshold : Int) (r : TrackedSeriesRow) : Bool :=
  match r.lastChecked with
  | none => true
  | some t => t < threshold

/-- `TrackedSeries.getDueForCheck` (controller concatenation lines
535-552): filter the due rows, order them by last-checked ascending with
nulls first, and keep at most `lim` rows.  SQL promises only sortedness,
modelled here with insertion sort. -/
def getDueForCheck (rows : List TrackedSeriesRow) (threshold : Int) (lim : Nat) :
    List TrackedSeriesRow :=
  (List.insertionSort lastCheckedLe (rows.filter (dueForCheckPred threshold))).take lim

/-- The staleness threshold of `NewReleaseManager.runScheduledCheck`:
24 hours, in milliseconds. -/
def checkThresholdMs : Int := 24 * 60 * 60 * 1000

/-- The scheduler state of `NewReleaseManager`: the single-flight flag,
the tracked-series table, and counters for the observable effects — the
"starting" log, the "already running, skipping" log, the top-level error
log, and the number of series processed by sweeps. -/
structure SchedulerState where
  isRunning : Bool
  rows : List TrackedSeriesRow
  startLogs : Nat
  skipLogs : Nat
  errorLogs : Nat
  seriesChecked : Nat
  deriving DecidableEq

/-- `NewReleaseManager.runScheduledCheck` (controller concatenation lines
280-307): a sweep request arriving while `isRunning` is set only logs a
warning and returns; otherwise the guard is taken, the start is logged,
the due batch (threshold now minus 24 h, limit 100) is processed — or the
sweep throws, which is caught and logged — and the `finally` block clears
the guard on both paths. -/
def runScheduledCheck (now : Int) (sweepThrows : Bool) (s : SchedulerState) :
    SchedulerState :=
  if s.isRunning then { s with skipLogs := s.skipLogs + 1 }
  else
    let s1 := { s with isRunning := true, startLogs := s.startLogs + 1 }
    let s2 :=
      if sweepThrows then { s1 with errorLogs := s1.errorLogs + 1 }
      else { s1 with seriesChecked :=
        s1.seriesChecked + (getDueForCheck s1.rows (now - checkThresholdMs) 100).length }
    { s2 with isRunning := false }

/-- C7: the due-selection of a sweep returns at most 100 rows, only due rows
(null last-checked or older than the threshold), all due rows whenever at
most 100 are due, and orders the result oldest-checked-first with null
last-checked before every non-null row. -/
theorem c7_due_selection :
    ∀ (rows : List TrackedSeriesRow) (threshold : Int),
      (getDueForCheck rows threshold 100).length ≤ 100 ∧
      (∀ r ∈ getDueForCheck rows threshold 100, dueForCheckPred threshold r = true) ∧
      ((rows.filter (dueForCheckPred threshold)).length ≤ 100 →
        ∀ r ∈ rows, dueForCheckPred threshold r = true →
          r ∈ getDueForCheck rows threshold 100) ∧
      (getDueForCheck rows threshold 100).Pairwise (fun a b =>
        a.lastChecked = none ∨
          ∃ x y, a.lastChecked = some x ∧ b.lastChecked = some y ∧ x ≤ y) := by
  intro rows threshold
  refine ⟨?_, ?_, ?_, ?_⟩
  · unfold getDueForCheck
    rw [List.length_take]
    exact min_le_left _ _
  · intro r hr
    have h1 : r ∈ List.insertionSort lastCheckedLe (rows.filter (dueForCheckPred threshold)) :=
      List.mem_of_mem_take hr
    have h2 : r ∈ rows.filter (dueForCheckPred threshold) :=
      (List.mem_insertionSort lastCheckedLe).mp h1
    exact (List.mem_filter.mp h2).2
  · intro hlen r hr hdue
    have hmemf : r ∈ rows.filter (dueForCheckPred threshold) :=
      List.mem_filter.mpr ⟨hr, hdue⟩
    have hmems : r ∈ List.insertionSort lastCheckedLe (rows.filter (dueForCheckPred threshold)) :=
      (List.mem_insertionSort lastCheckedLe).mpr hmemf
    have hslen : (List.insertionSort lastCheckedLe
        (rows.filter (dueForCheckPred threshold))).length ≤ 100 := by
      rw [(List.perm_insertionSort lastCheckedLe _).length_eq]
      exact hlen
    unfold getDueForCheck
    rw [List.take_of_length_le hslen]
    exact hmems
  · have hsorted : (List.insertionSort lastCheckedLe
        (rows.filter (dueForCheckPred threshold))).Pairwise lastCheckedLe :=
      List.sorted_insertionSort lastCheckedLe _
    have htake : (getDueForCheck rows threshold 100).Pairwise lastCheckedLe :=
      List.Pairwise.sublist (List.take_sublist _ _) hsorted
    refine htake.imp ?_
    intro a b hab
    unfold lastCheckedLe lastCheckedLeB at hab
    cases ha : a.lastChecked with
    | none => exact Or.inl rfl
    | some x =>
      rw [ha] at hab
      cases hb : b.lastChecked with
      | none =>
        rw [hb] at hab
        cases hab
      | some y =>
        rw [hb] at hab
        simp only [decide_eq_true_eq] at hab
        exact Or.inr ⟨x, y, rfl, rfl, hab⟩

/-- A never-checked tracked series, for the C7 witness. -/
def neverCheckedRow : TrackedSeriesRow :=
  { id := "a", userId := "u", seriesId := "s1", seriesAsin := some "B00TEST123",
    autoTracked := false, region := "us", lastChecked := none }

/-- A tracked series last checked at instant 10, for the C7 witness. -/
def staleRow : TrackedSeriesRow :=
  { id := "b", userId := "u", seriesId := "s2", seriesAsin := none,
    autoTracked := false, region := "us", lastChecked := some 10 }

/-- Witness for C7: with two due rows the never-checked one is selected. -/
theorem c7_witness : neverCheckedRow ∈ getDueForCheck [staleRow, neverCheckedRow] 100 100 :=
  (c7_due_selection [staleRow, neverCheckedRow] 100).2.2.1 (by decide)
    neverCheckedRow (by decide) (by decide)

/-- C8: invoking `runScheduledCheck` while a sweep is in progress only
increments the skip log — the state is otherwise untouched, so no second
sweep starts and no duplicate start log appears — and from an idle state
the single-flight guard is clear again after the sweep, whether it
completed normally or threw. -/
theorem c8_single_flight :
    ∀ (now : Int) (sweepThrows : Bool) (s : SchedulerState),
      (s.isRunning = true →
        runScheduledCheck now sweepThrows s = { s with skipLogs := s.skipLogs + 1 }) ∧
      (s.isRunning = false →
        (runScheduledCheck now sweepThrows s).isRunning = false) := by
  intro now sweepThrows s
  constructor
  · intro h
    unfold runScheduledCheck
    simp [h]
  · intro h
    unfold runScheduledCheck
    rw [h]
    cases sweepThrows <;> simp

/-- An idle scheduler over an empty table, for the C8 witness. -/
def idleSched : SchedulerState :=
  { isRunning := false, rows := [], startLogs := 0, skipLogs := 0,
    errorLogs := 0, seriesChecked := 0 }

/-- A scheduler with a sweep in progress, for the C8 witness. -/
def busySched : SchedulerState :=
  { isRunning := true, rows := [], startLogs := 1, skipLogs := 0,
    errorLogs := 0, seriesChecked := 0 }

/-- Witness for C8: a request during a sweep only logs the skip, and a
throwing sweep from idle leaves the guard clear. -/
theorem c8_witness :
    runScheduledCheck 0 false busySched = { busySched with skipLogs := 1 } ∧
    (runScheduledCheck 0 true idleSched).isRunning = false :=
  ⟨(c8_single_flight 0 false busySched).1 rfl, (c8_single_flight 0 true idleSched).2 rfl⟩


/-- The numeric value of a digit string. -/
def digitsVal (ds : List Char) : Nat :=
  ds.foldl (fun n c => 10 * n + (c.toNat - '0'.toNat)) 0

/-- An exact rational value num / den with den a positive power of ten,
the representation of a SQLite REAL produced by casting a sequence
marker (markers are short decimal strings, so the cast is exact). -/
structure CastVal where
  num : Int
  den : Nat
  deriving DecidableEq

/-- Powers of ten. -/
def pow10 : Nat → Nat
  | 0 => 1
  | n + 1 => 10 * pow10 n

/-- SQLite semantics of `CAST(sequence AS FLOAT)` on a text value, which
is what the order clause of `NewRelease.getForTrackedSeries` executes:
the longest prefix that reads as a real number — optional sign, integer
digits, optional fractional part — is converted, and a value with no
numeric prefix converts to 0.  Exponent suffixes never occur in sequence
markers and are not modelled. -/
def sqliteCastReal (s : String) : CastVal :=
  let cs := s.toList.dropWhile (fun c => c = ' ')
  let neg :=
    match cs with
    | '-' :: _ => true
    | _ => false
  let cs1 :=
    match cs with
    | '-' :: t => t
    | '+' :: t => t
    | t => t
  let intDs := cs1.takeWhile Char.isDigit
  let fracDs :=
    match cs1.dropWhile Char.isDigit with
    | '.' :: t => t.takeWhile Char.isDigit
    | _ => []
  if intDs.isEmpty && fracDs.isEmpty then { num := 0, den := 1 }
  else
    let mag : Nat := digitsVal intDs * pow10 fracDs.length + digitsVal fracDs
    { num := if neg then -(mag : Int) else (mag : Int), den := pow10 fracDs.length }

/-- Comparison of two cast values as rationals, by cross
multiplication (denominators are positive). -/
def castValLe (a b : CastVal) : Prop :=
  a.num * (b.den : Int) ≤ b.num * (a.den : Int)

instance : DecidableRel castValLe :=
  fun a b => inferInstanceAs (Decidable (_ ≤ _))

example : sqliteCastReal "abc" = { num := 0, den := 1 } := by decide
example : sqliteCastReal "2, Dramatized Adaptation" = { num := 2, den := 1 } := by decide
example : sqliteCastReal ".5" = { num := 5, den := 10 } := by decide
example : sqliteCastReal "1.5" = { num := 15, den := 10 } := by decide

theorem pow10_pos (n : Nat) : 0 < pow10 n := by
  induction n with
  | zero => decide
  | succ k ih =>
    unfold pow10
    omega

theorem sqliteCastReal_den_pos (s : String) : 0 < (sqliteCastReal s).den := by
  unfold sqliteCastReal
  dsimp only
  split
  · decide
  · exact pow10_pos _

theorem castValLe_total (a b : CastVal) : castValLe a b ∨ castValLe b a := by
  unfold castValLe
  exact Int.le_total _ _

theorem castValLe_trans {a b c : CastVal} (hb : 0 < b.den)
    (hab : castValLe a b) (hbc : castValLe b c) : castValLe a c := by
  unfold castValLe at hab hbc ⊢
  have hdc : (0 : Int) ≤ (c.den : Int) := Int.natCast_nonneg _
  have hda : (0 : Int) ≤ (a.den : Int) := Int.natCast_nonneg _
  have h1 : a.num * (b.den : Int) * (c.den : Int) ≤ b.num * (a.den : Int) * (c.den : Int) :=
    mul_le_mul_of_nonneg_right hab hdc
  have h2 : b.num * (c.den : Int) * (a.den : Int) ≤ c.num * (b.den : Int) * (a.den : Int) :=
    mul_le_mul_of_nonneg_right hbc hda
  have h3 : a.num * (c.den : Int) * (b.den : Int) ≤ c.num * (a.den : Int) * (b.den : Int) := by
    calc a.num * (c.den : Int) * (b.den : Int)
        = a.num * (b.den : Int) * (c.den : Int) := by ring
      _ ≤ b.num * (a.den : Int) * (c.den : Int) := h1
      _ = b.num * (c.den : Int) * (a.den : Int) := by ring
      _ ≤ c.num * (b.den : Int) * (a.den : Int) := h2
      _ = c.num * (a.den : Int) * (b.den : Int) := by ring
  have hbpos : (0 : Int) < (b.den : Int) := by
    exact_mod_cast hb
  exact le_of_mul_le_mul_right h3 hbpos

/-- The order key of `ORDER BY CAST(sequence AS FLOAT) ASC NULLS LAST`:
a null marker sorts after every non-null one, non-null markers ascend by
their cast value. -/
def releaseOrderLeB (a b : NewReleaseRow) : Bool :=
  match a.sequence, b.sequence with
  | none, none => true
  | none, some _ => false
  | some _, none => true
  | some x, some y => decide (castValLe (sqliteCastReal x) (sqliteCastReal y))

/-- Propositional form of `releaseOrderLeB` for the sorting lemmas. -/
def releaseOrderLe (a b : NewReleaseRow) : Prop := releaseOrderLeB a b = true

instance : DecidableRel releaseOrderLe :=
  fun a b => inferInstanceAs (Decidable (releaseOrderLeB a b = true))

instance : IsTotal NewReleaseRow releaseOrderLe := by
  constructor
  intro a b
  unfold releaseOrderLe releaseOrderLeB
  cases a.sequence with
  | none =>
    cases b.sequence with
    | none => exact Or.inl rfl
    | some y => exact Or.inr rfl
  | some x =>
    cases b.sequence with
    | none => exact Or.inl rfl
    | some y =>
      simp only [decide_eq_true_eq]
      exact castValLe_total _ _

instance : IsTrans NewReleaseRow releaseOrderLe := by
  constructor
  intro a b c hab hbc
  unfold releaseOrderLe releaseOrderLeB at hab hbc ⊢
  cases ha : a.sequence with
  | none =>
    rw [ha] at hab
    cases hc : c.sequence with
    | none => rfl
    | some z =>
      cases hb : b.sequence with
      | none =>
        rw [hb, hc] at hbc
        cases hbc
      | some y =>
        rw [hb] at hab
        cases hab
  | some x =>
    rw [ha] at hab
    cases hc : c.sequence with
    | none => rfl
    | some z =>
      cases hb : b.sequence with
      | none =>
        rw [hb] at hbc
        rw [hc] at hbc
        cases hbc
      | some y =>
        rw [hb] at hab hbc
        rw [hc] at hbc
        simp only [decide_eq_true_eq] at hab hbc ⊢
        exact castValLe_trans (sqliteCastReal_den_pos y) hab hbc

/-- `NewRelease.getForTrackedSeries`
(src/server/models/NewRelease.js:78-88): the releases of one tracked
series, without the dismissed ones unless requested, ordered by
`CAST(sequence AS FLOAT) ASC NULLS LAST`.  SQL promises only sortedness,
modelled here with insertion sort. -/
def getForTrackedSeries (st : List NewReleaseRow) (tsId : String)
    (includeDismissed : Bool) : List NewReleaseRow :=
  List.insertionSort releaseOrderLe
    (st.filter (fun r => r.trackedSeriesId = tsId && (includeDismissed || !r.dismissed)))

/-- Whether a sequence marker is numeric in the sense of the claim: the
entire marker reads as a decimal or integer numeral (optionally signed,
leading-dot decimals allowed). -/
def isNumericMarker (s : String) : Bool :=
  let cs1 :=
    match s.toList with
    | '-' :: t => t
    | '+' :: t => t
    | t => t
  let intDs := cs1.takeWhile Char.isDigit
  match cs1.dropWhile Char.isDigit with
  | [] => !intDs.isEmpty
  | '.' :: t => (!intDs.isEmpty || !t.isEmpty) && t.all Char.isDigit
  | _ => false

/-- The ordering requirement claimed for the listing, written from the
words of the claim: no row with a numeric marker ever appears after a row
whose marker is non-numeric or missing. -/
def specNonNumericLast (rows : List NewReleaseRow) : Prop :=
  rows.Pairwise (fun a b =>
    (match b.sequence with | some y => isNumericMarker y | none => false) = true →
    (match a.sequence with | some x => isNumericMarker x | none => false) = true)

instance (rows : List NewReleaseRow) : Decidable (specNonNumericLast rows) :=
  inferInstanceAs (Decidable (rows.Pairwise _))

/-- A persisted release with the non-numeric marker "abc". -/
def releaseAbc : NewReleaseRow :=
  { trackedSeriesId := "t", asin := "A1", title := "x", author := none,
    narrator := none, coverUrl := none, releaseDate := none,
    sequence := some "abc", provider := "audible", dismissed := false }

/-- A persisted release with the numeric marker "1". -/
def releaseOne : NewReleaseRow :=
  { trackedSeriesId := "t", asin := "A2", title := "y", author := none,
    narrator := none, coverUrl := none, releaseDate := none,
    sequence := some "1", provider := "audible", dismissed := false }

/-- C9 counterexample: SQLite casts the non-numeric marker "abc" to 0, so
that row sorts before the row with numeric marker "1" instead of after
every numeric row as claimed (`NULLS LAST` only moves genuinely NULL
markers). -/
theorem c9_counterexample :
    getForTrackedSeries [releaseOne, releaseAbc] "t" false = [releaseAbc, releaseOne] ∧
    isNumericMarker "abc" = false ∧
    isNumericMarker "1" = true ∧
    ¬ specNonNumericLast (getForTrackedSeries [releaseOne, releaseAbc] "t" false) := by
  refine ⟨by decide, by decide, by decide, by decide⟩

/-- C9 amended: the listed rows are exactly the requested rows of that
tracked series, ordered ascending by the SQLite FLOAT cast of the
sequence marker — the longest numeric prefix of the marker, 0 when it has
none — with only the rows whose marker is missing (NULL) sorted after all
rows that have a marker. -/
theorem c9_release_order :
    ∀ (st : List NewReleaseRow) (tsId : String) (includeDismissed : Bool),
      List.Perm (getForTrackedSeries st tsId includeDismissed)
        (st.filter (fun r => r.trackedSeriesId = tsId
          && (includeDismissed || !r.dismissed))) ∧
      (getForTrackedSeries st tsId includeDismissed).Pairwise (fun a b =>
        match a.sequence, b.sequence with
        | some x, some y => castValLe (sqliteCastReal x) (sqliteCastReal y)
        | _, none => True
        | none, some _ => False) := by
  intro st tsId includeDismissed
  constructor
  · exact List.perm_insertionSort releaseOrderLe _
  · have hsorted : (getForTrackedSeries st tsId includeDismissed).Pairwise releaseOrderLe :=
      List.sorted_insertionSort releaseOrderLe _
    refine hsorted.imp ?_
    intro a b hab
    unfold releaseOrderLe releaseOrderLeB at hab
    cases ha : a.sequence with
    | none =>
      rw [ha] at hab
      cases hb : b.sequence with
      | none => trivial
      | some y =>
        rw [hb] at hab
        cases hab
    | some x =>
      rw [ha] at hab
      cases hb : b.sequence with
      | none => trivial
      | some y =>
        rw [hb] at hab
        simp only [decide_eq_true_eq] at hab
        exact hab
